import Mathlib

set_option maxRecDepth 100000

/-!
Shallow embedding of the elysia-line webhook plugin core.

The embedding covers, from the source:
- `validateSignature` (src/plugin/elysia-line.ts): HMAC-SHA256 of the raw
  body keyed by the channel secret, base64-encoded, compared to the header.
- the `onRequest` intake hook and the `derive` facade of the plugin.
- `LineHelper.on` / `LineHelper.handle` / `LineHelper.reply` /
  `LineHelper.push` (src/core/line-helper.ts).

Machine integers are modelled as `Nat` with explicit reduction mod `2 ^ 32`
where 32-bit wraparound matters. Promise scheduling is modelled by giving
each launched handler an abstract settle time and an optional error, with
the JS `Promise.all` join semantics made explicit.
-/

/-! ### 32-bit word helpers (model of Node crypto HMAC-SHA256 internals) -/

def w32 (n : Nat) : Nat := n % 4294967296

def rotr32 (k n : Nat) : Nat := w32 (n / 2 ^ k + n % 2 ^ k * 2 ^ (32 - k))

def chF (e f g : Nat) : Nat := (e &&& f) ^^^ ((e ^^^ 4294967295) &&& g)

def majF (a b c : Nat) : Nat := (a &&& b) ^^^ (a &&& c) ^^^ (b &&& c)

def bsig0 (a : Nat) : Nat := rotr32 2 a ^^^ rotr32 13 a ^^^ rotr32 22 a

def bsig1 (e : Nat) : Nat := rotr32 6 e ^^^ rotr32 11 e ^^^ rotr32 25 e

def ssig0 (x : Nat) : Nat := rotr32 7 x ^^^ rotr32 18 x ^^^ x / 2 ^ 3

def ssig1 (x : Nat) : Nat := rotr32 17 x ^^^ rotr32 19 x ^^^ x / 2 ^ 10

/-! ### SHA-256 -/

structure Hash8 where
  ha : Nat
  hb : Nat
  hc : Nat
  hd : Nat
  he : Nat
  hf : Nat
  hg : Nat
  hh : Nat

def sha256Init : Hash8 :=
  ⟨1779033703, 3144134277, 1013904242, 2773480762,
   1359893119, 2600822924, 528734635, 1541459225⟩

def K64 : List Nat :=
  [1116352408, 1899447441, 3049323471, 3921009573, 961987163,
   1508970993, 2453635748, 2870763221, 3624381080, 310598401,
   607225278, 1426881987, 1925078388, 2162078206, 2614888103,
   3248222580, 3835390401, 4022224774, 264347078, 604807628,
   770255983, 1249150122, 1555081692, 1996064986, 2554220882,
   2821834349, 2952996808, 3210313671, 3336571891, 3584528711,
   113926993, 338241895, 666307205, 773529912, 1294757372,
   1396182291, 1695183700, 1986661051, 2177026350, 2456956037,
   2730485921, 2820302411, 3259730800, 3345764771, 3516065817,
   3600352804, 4094571909, 275423344, 430227734, 506948616,
   659060556, 883997877, 958139571, 1322822218, 1537002063,
   1747873779, 1955562222, 2024104815, 2227730452, 2361852424,
   2428436474, 2756734187, 3204031479, 3329325298]

def sha256Round (s : Hash8) (kw : Nat × Nat) : Hash8 :=
  let t1 := w32 (s.hh + bsig1 s.he + chF s.he s.hf s.hg + kw.1 + kw.2)
  let t2 := w32 (bsig0 s.ha + majF s.ha s.hb s.hc)
  ⟨w32 (t1 + t2), s.ha, s.hb, s.hc, w32 (s.hd + t1), s.he, s.hf, s.hg⟩

def extendStep (w : List Nat) : List Nat :=
  let n := w.length
  w ++ [w32 (w.getD (n - 16) 0 + ssig0 (w.getD (n - 15) 0) +
             w.getD (n - 7) 0 + ssig1 (w.getD (n - 2) 0))]

def extendW (w : List Nat) : List Nat :=
  (List.range 48).foldl (fun acc _ => extendStep acc) w

def compressBlock (s : Hash8) (block : List Nat) : Hash8 :=
  let r := (K64.zip (extendW block)).foldl sha256Round s
  ⟨w32 (s.ha + r.ha), w32 (s.hb + r.hb), w32 (s.hc + r.hc), w32 (s.hd + r.hd),
   w32 (s.he + r.he), w32 (s.hf + r.hf), w32 (s.hg + r.hg), w32 (s.hh + r.hh)⟩

def bytesToWords : List Nat → List Nat
  | a :: b :: c :: d :: rest => (a * 16777216 + b * 65536 + c * 256 + d) :: bytesToWords rest
  | _ => []

def chunk16 : List Nat → List (List Nat)
  | w0 :: w1 :: w2 :: w3 :: w4 :: w5 :: w6 :: w7 ::
    w8 :: w9 :: w10 :: w11 :: w12 :: w13 :: w14 :: w15 :: rest =>
      [w0, w1, w2, w3, w4, w5, w6, w7, w8, w9, w10, w11, w12, w13, w14, w15] :: chunk16 rest
  | _ => []

def be8 (n : Nat) : List Nat :=
  [n / 2 ^ 56 % 256, n / 2 ^ 48 % 256, n / 2 ^ 40 % 256, n / 2 ^ 32 % 256,
   n / 2 ^ 24 % 256, n / 2 ^ 16 % 256, n / 2 ^ 8 % 256, n % 256]

def sha256Pad (msg : List Nat) : List Nat :=
  let L := msg.length
  let k := (120 - (L + 1) % 64) % 64
  msg ++ 0x80 :: (List.replicate k 0 ++ be8 (8 * L))

def wordBE4 (n : Nat) : List Nat :=
  [n / 16777216 % 256, n / 65536 % 256, n / 256 % 256, n % 256]

def digestBytes (s : Hash8) : List Nat :=
  wordBE4 s.ha ++ wordBE4 s.hb ++ wordBE4 s.hc ++ wordBE4 s.hd ++
  wordBE4 s.he ++ wordBE4 s.hf ++ wordBE4 s.hg ++ wordBE4 s.hh

def sha256 (msg : List Nat) : List Nat :=
  digestBytes ((chunk16 (bytesToWords (sha256Pad msg))).foldl compressBlock sha256Init)

/-! ### HMAC-SHA256 and base64, as used by createHmac(...).digest("base64") -/

def hmacSha256 (key msg : List Nat) : List Nat :=
  let k0 := if key.length > 64 then sha256 key else key
  let k1 := k0 ++ List.replicate (64 - k0.length) 0
  sha256 ((k1.map (fun b => b ^^^ 0x5c)) ++ sha256 ((k1.map (fun b => b ^^^ 0x36)) ++ msg))

def b64Table : List Char :=
  "ABCDEFGHIJKLMNOPQRSTUVWXYZabcdefghijklmnopqrstuvwxyz0123456789+/".data

def b64c (n : Nat) : Char := b64Table.getD n '?'

def base64Chars : List Nat → List Char
  | a :: b :: c :: rest =>
    b64c (a / 4) :: b64c (a % 4 * 16 + b / 16) :: b64c (b % 16 * 4 + c / 64) ::
      b64c (c % 64) :: base64Chars rest
  | [a, b] => [b64c (a / 4), b64c (a % 4 * 16 + b / 16), b64c (b % 16 * 4), '=']
  | [a] => [b64c (a / 4), b64c (a % 4 * 16), '=', '=']
  | [] => []

def base64Encode (bs : List Nat) : String := ⟨base64Chars bs⟩

/-- UTF-8 encoding of one scalar value (model of what crypto.update does to
a JS string). -/
def utf8Char (c : Char) : List Nat :=
  let n := c.toNat
  if n < 0x80 then [n]
  else if n < 0x800 then [0xC0 + n / 64, 0x80 + n % 64]
  else if n < 0x10000 then [0xE0 + n / 4096, 0x80 + n / 64 % 64, 0x80 + n % 64]
  else [0xF0 + n / 262144, 0x80 + n / 4096 % 64, 0x80 + n / 64 % 64, 0x80 + n % 64]

def utf8Bytes (s : String) : List Nat := (s.data.map utf8Char).flatten

/-- src/plugin/elysia-line.ts, validateSignature: HMAC-SHA256 over the raw
body keyed by the channel secret, base64-encoded, compared for string
equality with the signature header. A pure function of its arguments. -/
def validateSignature (body signature channelSecret : String) : Bool :=
  base64Encode (hmacSha256 (utf8Bytes channelSecret) (utf8Bytes body)) = signature

/-! Known-answer checks validating the embedding of the crypto layer. -/

theorem sha256_empty_vector :
    sha256 [] =
      [0xe3, 0xb0, 0xc4, 0x42, 0x98, 0xfc, 0x1c, 0x14,
       0x9a, 0xfb, 0xf4, 0xc8, 0x99, 0x6f, 0xb9, 0x24,
       0x27, 0xae, 0x41, 0xe4, 0x64, 0x9b, 0x93, 0x4c,
       0xa4, 0x95, 0x99, 0x1b, 0x78, 0x52, 0xb8, 0x55] := by decide

theorem sha256_abc_vector :
    sha256 (utf8Bytes "abc") =
      [0xba, 0x78, 0x16, 0xbf, 0x8f, 0x01, 0xcf, 0xea,
       0x41, 0x41, 0x40, 0xde, 0x5d, 0xae, 0x22, 0x23,
       0xb0, 0x03, 0x61, 0xa3, 0x96, 0x17, 0x7a, 0x9c,
       0xb4, 0x10, 0xff, 0x61, 0xf2, 0x00, 0x15, 0xad] := by decide

theorem hmacSha256_fox_vector :
    hmacSha256 (utf8Bytes "key") (utf8Bytes "The quick brown fox jumps over the lazy dog") =
      [0xf7, 0xbc, 0x83, 0xf4, 0x30, 0x53, 0x84, 0x24,
       0xb1, 0x32, 0x98, 0xe6, 0xaa, 0x6f, 0xb1, 0x43,
       0xef, 0x4d, 0x59, 0xa1, 0x49, 0x46, 0x17, 0x59,
       0x97, 0x47, 0x9d, 0xbc, 0x2d, 0x1a, 0x3c, 0xd8] := by decide

theorem base64_man_vector : base64Encode [77, 97, 110] = "TWFu" := by decide

theorem base64_pad_vectors :
    base64Encode [77, 97] = "TWE=" ∧ base64Encode [77] = "TQ==" := by decide

/-! ### Injectivity of the base64 encoding on byte lists

Needed to relate digest inequality to signature-string inequality. The
decoder below is a verification artifact (it is not part of the source). -/

def b64v (c : Char) : Nat := b64Table.findIdx (· == c)

def base64DecodeChars : List Char → List Nat
  | c1 :: c2 :: c3 :: c4 :: rest =>
      if c3 = '=' then [b64v c1 * 4 + b64v c2 / 16]
      else if c4 = '=' then
        [b64v c1 * 4 + b64v c2 / 16, b64v c2 % 16 * 16 + b64v c3 / 4]
      else
        (b64v c1 * 4 + b64v c2 / 16) ::
        (b64v c2 % 16 * 16 + b64v c3 / 4) ::
        (b64v c3 % 4 * 64 + b64v c4) :: base64DecodeChars rest
  | _ => []

theorem b64v_b64c : ∀ n, n < 64 → b64v (b64c n) = n := by decide

theorem b64c_ne_pad : ∀ n, n < 64 → b64c n ≠ '=' := by decide

theorem b64_roundtrip : ∀ bs : List Nat, (∀ x ∈ bs, x < 256) →
    base64DecodeChars (base64Chars bs) = bs
  | [], _ => by decide
  | [a], h => by
    have ha : a < 256 := h a (by simp)
    have h1 : b64v (b64c (a / 4)) = a / 4 := b64v_b64c _ (by omega)
    have h2 : b64v (b64c (a % 4 * 16)) = a % 4 * 16 := b64v_b64c _ (by omega)
    simp only [base64Chars, base64DecodeChars, if_pos, h1, h2]
    simp only [List.cons.injEq, and_true]
    omega
  | [a, b], h => by
    have ha : a < 256 := h a (by simp)
    have hb : b < 256 := h b (by simp)
    have h1 : b64v (b64c (a / 4)) = a / 4 := b64v_b64c _ (by omega)
    have h2 : b64v (b64c (a % 4 * 16 + b / 16)) = a % 4 * 16 + b / 16 :=
      b64v_b64c _ (by omega)
    have h3 : b64v (b64c (b % 16 * 4)) = b % 16 * 4 := b64v_b64c _ (by omega)
    have hne : b64c (b % 16 * 4) ≠ '=' := b64c_ne_pad _ (by omega)
    simp only [base64Chars, base64DecodeChars, if_neg hne, if_pos, h1, h2, h3]
    simp only [List.cons.injEq, and_true]
    omega
  | a :: b :: c :: rest, h => by
    have ha : a < 256 := h a (by simp)
    have hb : b < 256 := h b (by simp)
    have hc : c < 256 := h c (by simp)
    have h1 : b64v (b64c (a / 4)) = a / 4 := b64v_b64c _ (by omega)
    have h2 : b64v (b64c (a % 4 * 16 + b / 16)) = a % 4 * 16 + b / 16 :=
      b64v_b64c _ (by omega)
    have h3 : b64v (b64c (b % 16 * 4 + c / 64)) = b % 16 * 4 + c / 64 :=
      b64v_b64c _ (by omega)
    have h4 : b64v (b64c (c % 64)) = c % 64 := b64v_b64c _ (by omega)
    have hne3 : b64c (b % 16 * 4 + c / 64) ≠ '=' := b64c_ne_pad _ (by omega)
    have hne4 : b64c (c % 64) ≠ '=' := b64c_ne_pad _ (by omega)
    have ih := b64_roundtrip rest (fun x hx => h x (by simp [hx]))
    simp only [base64Chars, base64DecodeChars, if_neg hne3, if_neg hne4, h1, h2, h3, h4, ih]
    simp only [List.cons.injEq, and_true]
    omega

theorem base64Encode_inj (xs ys : List Nat) (hx : ∀ x ∈ xs, x < 256)
    (hy : ∀ y ∈ ys, y < 256) (h : base64Encode xs = base64Encode ys) : xs = ys := by
  have hd : base64Chars xs = base64Chars ys := congrArg String.data h
  calc xs = base64DecodeChars (base64Chars xs) := (b64_roundtrip xs hx).symm
    _ = base64DecodeChars (base64Chars ys) := by rw [hd]
    _ = ys := b64_roundtrip ys hy

theorem wordBE4_lt (n : Nat) : ∀ x ∈ wordBE4 n, x < 256 := by
  intro x hx
  simp only [wordBE4, List.mem_cons, List.not_mem_nil, or_false] at hx
  rcases hx with rfl | rfl | rfl | rfl <;> omega

theorem digestBytes_lt (s : Hash8) : ∀ x ∈ digestBytes s, x < 256 := by
  intro x hx
  simp only [digestBytes, List.mem_append] at hx
  rcases hx with ((((((h | h) | h) | h) | h) | h) | h) | h <;> exact wordBE4_lt _ _ h

theorem sha256_lt (m : List Nat) : ∀ x ∈ sha256 m, x < 256 := by
  intro x hx
  exact digestBytes_lt _ x hx

theorem hmacSha256_lt (key msg : List Nat) : ∀ x ∈ hmacSha256 key msg, x < 256 := by
  intro x hx
  exact sha256_lt _ x hx

theorem sha256_cons (m : List Nat) : ∃ a l, sha256 m = a :: l := ⟨_, _, rfl⟩

theorem hmacSha256_cons (key msg : List Nat) : ∃ a l, hmacSha256 key msg = a :: l :=
  ⟨_, _, rfl⟩

theorem base64Chars_ne_nil (a : Nat) (l : List Nat) : base64Chars (a :: l) ≠ [] := by
  cases l with
  | nil => simp [base64Chars]
  | cons b t => cases t <;> simp [base64Chars]

/-- Single-position mutation of a body string. -/
def mutateAt (s : String) (i : Nat) (c : Char) : String := ⟨s.data.set i c⟩

/-- C4: verify returns true when the signature header equals the base64
encoding of the HMAC-SHA256 digest of the body keyed by the secret, and
false for any other header value, in particular for the empty header and,
whenever the mutated digest differs from the original one (the collision
freedom the spec sentence takes for granted), for a single-position
mutation of the body checked against the original signature. Purity holds
by construction: validateSignature is a function of its three arguments. -/
theorem validateSignature_spec :
    (∀ B S : String,
      validateSignature B (base64Encode (hmacSha256 (utf8Bytes S) (utf8Bytes B))) S = true) ∧
    (∀ B S sig : String,
      sig ≠ base64Encode (hmacSha256 (utf8Bytes S) (utf8Bytes B)) →
      validateSignature B sig S = false) ∧
    (∀ B S : String, validateSignature B "" S = false) ∧
    (∀ (B : String) (i : Nat) (c : Char) (S : String),
      hmacSha256 (utf8Bytes S) (utf8Bytes (mutateAt B i c)) ≠
        hmacSha256 (utf8Bytes S) (utf8Bytes B) →
      validateSignature (mutateAt B i c)
        (base64Encode (hmacSha256 (utf8Bytes S) (utf8Bytes B))) S = false) := by
  refine ⟨fun B S => by simp [validateSignature], fun B S sig h => ?_, fun B S => ?_, ?_⟩
  · simp only [validateSignature, decide_eq_false_iff_not]
    exact fun he => h he.symm
  · simp only [validateSignature, decide_eq_false_iff_not]
    intro he
    obtain ⟨a, l, hal⟩ := hmacSha256_cons (utf8Bytes S) (utf8Bytes B)
    rw [hal] at he
    exact base64Chars_ne_nil a l (congrArg String.data he)
  · intro B i c S h
    simp only [validateSignature, decide_eq_false_iff_not]
    intro he
    exact h (base64Encode_inj _ _ (hmacSha256_lt _ _) (hmacSha256_lt _ _) he)

/-- Witness for C4: the hypothesised parts applied at concrete inputs. -/
theorem validateSignature_spec_witness :
    validateSignature "ab" "bad" "key" = false ∧
    validateSignature (mutateAt "ab" 0 'c')
      (base64Encode (hmacSha256 (utf8Bytes "key") (utf8Bytes "ab"))) "key" = false :=
  ⟨validateSignature_spec.2.1 "ab" "key" "bad" (by decide),
   validateSignature_spec.2.2.2 "ab" 0 'c' "key" (by decide)⟩

/-! ### Event dispatcher (src/core/line-helper.ts, class LineHelper)

A handler invocation returns a promise modelled by `Async`: the abstract
tick at which it settles and the error it rejects with, if any. The tick
and the error of one launched invocation are fixed at launch: cooperative
single-threaded scheduling with no cancellation means siblings cannot
change them. `promiseAll` is the explicit model of the JS `Promise.all`
join that `handle` awaits: it resolves at the latest fulfilment when no
input rejects, and otherwise rejects as soon as the earliest rejection
settles (ties broken by launch order). -/

structure EventMessage where
  type : String
  deriving DecidableEq

structure Event where
  type : String
  message : Option EventMessage
  deriving DecidableEq

structure Async where
  settleAt : Nat
  error : Option String
  deriving DecidableEq

structure Handler where
  hid : Nat
  run : Event → Async

/-- The handlers field: a Map from selector to ordered handler list. -/
abbrev EventHandlers := List (String × List Handler)

def mapGet (m : EventHandlers) (k : String) : Option (List Handler) :=
  (m.find? (fun p => p.1 == k)).map (fun p => p.2)

def mapSet (m : EventHandlers) (k : String) (v : List Handler) : EventHandlers :=
  match m with
  | [] => [(k, v)]
  | (k0, v0) :: rest =>
    if k0 == k then (k0, v) :: rest
    else (k0, v0) :: mapSet rest k v

namespace LineHelper

/-- LineHelper.on: registers a handler by appending it to the ordered list
for the selector, creating the list first when the selector is new. -/
def «on» (m : EventHandlers) (eventType : String) (handler : Handler) : EventHandlers :=
  let m1 := if (mapGet m eventType).isSome then m else mapSet m eventType []
  mapSet m1 eventType ((mapGet m1 eventType).getD [] ++ [handler])

/-- One iteration of the event loop in LineHelper.handle: wildcard
handlers first, then message-subtype handlers when the event is a message
carrying a message object, then the handlers of the bare event type. -/
def launchForEvent (handlers : EventHandlers) (wildcardHandlers : List Handler)
    (event : Event) : List (Nat × Async) :=
  let step1 := wildcardHandlers.map (fun h => (h.hid, h.run event))
  let step2 :=
    if event.type = "message" then
      match event.message with
      | some m =>
        ((mapGet handlers ("message:" ++ m.type)).getD []).map (fun h => (h.hid, h.run event))
      | none => []
    else []
  let step3 := ((mapGet handlers event.type).getD []).map (fun h => (h.hid, h.run event))
  step1 ++ step2 ++ step3

/-- The promises array built by LineHelper.handle, tagged with handler
ids; the wildcard list is fetched once before the loop, as in the code. -/
def launched (handlers : EventHandlers) (events : List Event) : List (Nat × Async) :=
  let wildcardHandlers := (mapGet handlers "*").getD []
  events.foldl (fun acc e => acc ++ launchForEvent handlers wildcardHandlers e) []

def rejStep (acc : Option Async) (p : Async) : Option Async :=
  match p.error with
  | none => acc
  | some _ =>
    match acc with
    | none => some p
    | some q => if p.settleAt < q.settleAt then some p else some q

/-- The first rejection observed among the input promises, if any. -/
def firstRej (ps : List Async) : Option Async := ps.foldl rejStep none

def maxSettle (ps : List Async) : Nat := ps.foldl (fun mx p => max mx p.settleAt) 0

/-- Model of the JS Promise.all join awaited by LineHelper.handle. -/
def promiseAll (ps : List Async) : Async :=
  match firstRej ps with
  | some r => r
  | none => ⟨maxSettle ps, none⟩

/-- LineHelper.handle: launch every matched handler across the batch, then
await Promise.all of the collected promises; the catch block logs and
rethrows, so the join outcome is passed through unchanged. -/
def handle (handlers : EventHandlers) (events : List Event) : Async :=
  promiseAll ((launched handlers events).map (fun p => p.2))

/-! Outbound messenger (LineHelper.reply / LineHelper.push). -/

structure Message where
  type : String
  text : String
  deriving DecidableEq

inductive MessagesArg where
  | single (m : Message)
  | list (ms : List Message)

/-- Array.isArray(messages) ? messages : [messages] -/
def toMessageArray : MessagesArg → List Message
  | .list ms => ms
  | .single m => [m]

structure ReplyMessageCall where
  replyToken : String
  messages : List Message
  deriving DecidableEq

structure PushMessageCall where
  «to» : String
  messages : List Message
  deriving DecidableEq

/-- LineHelper.reply: the transport call it forwards to client.replyMessage. -/
def reply (replyToken : String) (messages : MessagesArg) : ReplyMessageCall :=
  ⟨replyToken, toMessageArray messages⟩

/-- LineHelper.push: the transport call it forwards to client.pushMessage. -/
def push («to» : String) (messages : MessagesArg) : PushMessageCall :=
  ⟨«to», toMessageArray messages⟩

end LineHelper

/-- The dispatch order stated by the spec: events in sequence order; per
event every wildcard handler, then, for a message event with a message
object, every handler under the composite message subtype selector, then
every handler under the bare type selector; registration order within one
selector. -/
def dispatchOrderSpec (handlers : EventHandlers) (events : List Event) : List Nat :=
  events.flatMap (fun e =>
    ((mapGet handlers "*").getD []).map Handler.hid ++
    (if e.type = "message" then
      match e.message with
      | some m => ((mapGet handlers ("message:" ++ m.type)).getD []).map Handler.hid
      | none => []
    else []) ++
    ((mapGet handlers e.type).getD []).map Handler.hid)

theorem foldl_append_launch (handlers : EventHandlers) (w : List Handler)
    (events : List Event) (init : List (Nat × Async)) :
    events.foldl (fun acc e => acc ++ LineHelper.launchForEvent handlers w e) init =
      init ++ events.flatMap (fun e => LineHelper.launchForEvent handlers w e) := by
  induction events generalizing init with
  | nil => simp
  | cons e t ih => simp [ih, List.append_assoc]

theorem rejStep_eq_none (acc : Option Async) (p : Async) :
    LineHelper.rejStep acc p = none ↔ acc = none ∧ p.error = none := by
  cases hp : p.error with
  | none => simp [LineHelper.rejStep, hp]
  | some e =>
    cases acc with
    | none => simp [LineHelper.rejStep, hp]
    | some q => simp [LineHelper.rejStep, hp]; split <;> simp

theorem firstRejAux_none (ps : List Async) (acc : Option Async) :
    ps.foldl LineHelper.rejStep acc = none ↔
      acc = none ∧ ∀ p ∈ ps, p.error = none := by
  induction ps generalizing acc with
  | nil => simp
  | cons p t ih =>
    simp only [List.foldl_cons, ih, rejStep_eq_none, List.mem_cons]
    constructor
    · rintro ⟨⟨h1, h2⟩, h3⟩
      exact ⟨h1, fun q hq => by rcases hq with rfl | hq; exact h2; exact h3 q hq⟩
    · rintro ⟨h1, h2⟩
      exact ⟨⟨h1, h2 p (Or.inl rfl)⟩, fun q hq => h2 q (Or.inr hq)⟩

theorem firstRej_none_iff (ps : List Async) :
    LineHelper.firstRej ps = none ↔ ∀ p ∈ ps, p.error = none := by
  simp [LineHelper.firstRej, firstRejAux_none]

theorem firstRejAux_mem (ps : List Async) (acc : Option Async) (r : Async)
    (h : ps.foldl LineHelper.rejStep acc = some r) : acc = some r ∨ r ∈ ps := by
  induction ps generalizing acc with
  | nil => exact Or.inl h
  | cons p t ih =>
    rcases ih (LineHelper.rejStep acc p) h with hs | hm
    · cases hp : p.error with
      | none => simp [LineHelper.rejStep, hp] at hs; exact Or.inl hs
      | some e =>
        cases acc with
        | none =>
          simp [LineHelper.rejStep, hp] at hs
          exact Or.inr (by simp [hs])
        | some q =>
          simp only [LineHelper.rejStep, hp] at hs
          split at hs
          · exact Or.inr (by simp at hs; simp [hs])
          · exact Or.inl hs
    · exact Or.inr (List.mem_cons_of_mem p hm)

theorem firstRejAux_err (ps : List Async) (acc : Option Async) (r : Async)
    (hacc : ∀ q, acc = some q → q.error.isSome)
    (h : ps.foldl LineHelper.rejStep acc = some r) : r.error.isSome := by
  induction ps generalizing acc with
  | nil => exact hacc r h
  | cons p t ih =>
    refine ih (LineHelper.rejStep acc p) ?_ h
    intro q hq
    cases hp : p.error with
    | none =>
      simp [LineHelper.rejStep, hp] at hq
      exact hacc q hq
    | some e =>
      cases acc with
      | none =>
        simp [LineHelper.rejStep, hp] at hq
        simp [← hq, hp]
      | some q0 =>
        simp only [LineHelper.rejStep, hp] at hq
        split at hq
        · simp at hq; simp [← hq, hp]
        · exact hacc q hq

theorem firstRejAux_min (ps : List Async) (acc : Option Async) (r : Async)
    (h : ps.foldl LineHelper.rejStep acc = some r) :
    (∀ qa, acc = some qa → r.settleAt ≤ qa.settleAt) ∧
    (∀ q ∈ ps, q.error.isSome → r.settleAt ≤ q.settleAt) := by
  induction ps generalizing acc with
  | nil =>
    simp only [List.foldl_nil] at h
    refine ⟨fun qa hqa => ?_, fun q hq => absurd hq (List.not_mem_nil q)⟩
    rw [h] at hqa
    simp at hqa
    simp [hqa]
  | cons p t ih =>
    obtain ⟨ih1, ih2⟩ := ih (LineHelper.rejStep acc p) h
    constructor
    · intro qa hqa
      cases hp : p.error with
      | none => exact ih1 qa (by simp [LineHelper.rejStep, hp, hqa])
      | some e =>
        rw [hqa] at ih1
        by_cases hlt : p.settleAt < qa.settleAt
        · have := ih1 p (by simp [LineHelper.rejStep, hp, if_pos hlt])
          omega
        · exact ih1 qa (by simp [LineHelper.rejStep, hp, if_neg hlt])
    · intro q hq hqe
      rcases List.mem_cons.mp hq with rfl | hq
      · cases hp : q.error with
        | none => simp [hp] at hqe
        | some e =>
          cases acc with
          | none => exact ih1 q (by simp [LineHelper.rejStep, hp])
          | some q0 =>
            by_cases hlt : q.settleAt < q0.settleAt
            · exact ih1 q (by simp [LineHelper.rejStep, hp, if_pos hlt])
            · have := ih1 q0 (by simp [LineHelper.rejStep, hp, if_neg hlt])
              omega
      · exact ih2 q hq hqe

theorem maxSettleAux_le (ps : List Async) (b : Nat) :
    b ≤ ps.foldl (fun mx p => max mx p.settleAt) b ∧
    ∀ p ∈ ps, p.settleAt ≤ ps.foldl (fun mx p => max mx p.settleAt) b := by
  induction ps generalizing b with
  | nil => simp
  | cons p t ih =>
    refine ⟨le_trans (le_max_left _ _) (ih (max b p.settleAt)).1, ?_⟩
    intro q hq
    rcases List.mem_cons.mp hq with rfl | hq
    · exact le_trans (le_max_right _ _) (ih (max b q.settleAt)).1
    · exact (ih (max b p.settleAt)).2 q hq

theorem launched_map_fst (handlers : EventHandlers) (events : List Event) :
    (LineHelper.launched handlers events).map Prod.fst = dispatchOrderSpec handlers events := by
  simp only [LineHelper.launched, foldl_append_launch, List.nil_append, dispatchOrderSpec,
    List.map_flatMap]
  congr 1
  funext e
  by_cases ht : e.type = "message"
  · cases hm : e.message with
    | some m =>
      simp only [LineHelper.launchForEvent, ht, hm, if_true, List.map_append, List.map_map]
      rfl
    | none =>
      simp only [LineHelper.launchForEvent, ht, hm, if_true, List.nil_append,
        List.map_append, List.map_map]
      rfl
  · simp only [LineHelper.launchForEvent, ht, if_false, List.nil_append, List.map_append,
      List.map_map]
    rfl

def exampleRegistry : EventHandlers :=
  LineHelper.«on» (LineHelper.«on» (LineHelper.«on» []
    "*" ⟨1, fun _ => ⟨0, none⟩⟩)
    "message:text" ⟨2, fun _ => ⟨0, none⟩⟩)
    "message" ⟨3, fun _ => ⟨0, none⟩⟩

def exampleTextEvent : Event := ⟨"message", some ⟨"text"⟩⟩

/-- C1: dispatch launches matched handlers deterministically: events in
sequence order; per event first every wildcard handler, then (for a
message event carrying a message object) every handler under the
message subtype selector, then every handler under the bare type
selector, registration order within a selector; and the concrete
H1 (wildcard), H2 (message:text), H3 (message) example launches 1, 2, 3. -/
theorem handle_launch_order :
    (∀ (handlers : EventHandlers) (events : List Event),
      (LineHelper.launched handlers events).map Prod.fst = dispatchOrderSpec handlers events) ∧
    (LineHelper.launched exampleRegistry [exampleTextEvent]).map Prod.fst = [1, 2, 3] :=
  ⟨launched_map_fst, by decide⟩

theorem promiseAll_cases (ps : List Async) :
    (LineHelper.promiseAll ps = ⟨LineHelper.maxSettle ps, none⟩ ∧ ∀ p ∈ ps, p.error = none) ∨
    (∃ r ∈ ps, LineHelper.promiseAll ps = r ∧ r.error.isSome = true ∧
      ∀ q ∈ ps, q.error.isSome = true → r.settleAt ≤ q.settleAt) := by
  cases hfr : LineHelper.firstRej ps with
  | none =>
    left
    exact ⟨by simp [LineHelper.promiseAll, hfr], (firstRej_none_iff ps).mp hfr⟩
  | some r =>
    right
    have hmem := firstRejAux_mem ps none r hfr
    simp only [reduceCtorEq, false_or] at hmem
    refine ⟨r, hmem, by simp [LineHelper.promiseAll, hfr],
      firstRejAux_err ps none r (by simp) hfr, (firstRejAux_min ps none r hfr).2⟩

def failFastRegistry : EventHandlers :=
  LineHelper.«on» (LineHelper.«on» []
    "*" ⟨1, fun _ => ⟨1, some "boom"⟩⟩)
    "*" ⟨2, fun _ => ⟨5, none⟩⟩

def followEvent : Event := ⟨"follow", none⟩

/-- C2 counterexample: one wildcard handler rejects at tick 1 while its
sibling fulfils at tick 5; handle settles at tick 1, before the sibling
has settled, so dispatch does not wait for every launched handler once a
failure is observed. -/
theorem handle_settles_before_sibling :
    (LineHelper.handle failFastRegistry [followEvent]).error.isSome = true ∧
    ¬ (∀ p ∈ LineHelper.launched failFastRegistry [followEvent],
        (p.2).settleAt ≤ (LineHelper.handle failFastRegistry [followEvent]).settleAt) := by
  decide

/-- C2 amended: when no launched handler fails, dispatch settles only
after every launched handler has settled; when some launched handler
fails, dispatch rejects with the first-settled rejection, at that
rejection's settle time — possibly before sibling handlers have settled —
and no launched handler is cancelled (each sibling settle behavior is
fixed at launch, independent of the failure). -/
theorem handle_join_semantics (handlers : EventHandlers) (events : List Event) :
    ((LineHelper.handle handlers events).error = none ↔
      ∀ p ∈ LineHelper.launched handlers events, (p.2).error = none) ∧
    ((∀ p ∈ LineHelper.launched handlers events, (p.2).error = none) →
      ∀ p ∈ LineHelper.launched handlers events,
        (p.2).settleAt ≤ (LineHelper.handle handlers events).settleAt) ∧
    ((LineHelper.handle handlers events).error.isSome = true →
      ∃ p ∈ LineHelper.launched handlers events,
        (p.2).error = (LineHelper.handle handlers events).error ∧
        (p.2).settleAt = (LineHelper.handle handlers events).settleAt ∧
        ∀ q ∈ LineHelper.launched handlers events, (q.2).error.isSome = true →
          (LineHelper.handle handlers events).settleAt ≤ (q.2).settleAt) := by
  rcases promiseAll_cases ((LineHelper.launched handlers events).map (fun p => p.2)) with
    ⟨hall, hnone⟩ | ⟨r, hr, hall, hsome, hmin⟩
  · have hh : LineHelper.handle handlers events =
        ⟨LineHelper.maxSettle ((LineHelper.launched handlers events).map (fun p => p.2)),
         none⟩ := hall
    refine ⟨?_, ?_, ?_⟩
    · rw [hh]
      exact ⟨fun _ p hp => hnone _ (List.mem_map_of_mem _ hp), fun _ => rfl⟩
    · intro _ p hp
      rw [hh]
      exact (maxSettleAux_le _ 0).2 _ (List.mem_map_of_mem _ hp)
    · intro habs
      rw [hh] at habs
      simp at habs
  · obtain ⟨p, hp, hpr⟩ := List.mem_map.mp hr
    have hh : LineHelper.handle handlers events = r := hall
    refine ⟨?_, ?_, ?_⟩
    · rw [hh]
      constructor
      · intro hre
        rw [hre] at hsome
        simp at hsome
      · intro hno
        have h0 := hno p hp
        rw [hpr] at h0
        rw [h0] at hsome
        simp at hsome
    · intro hno
      have h0 := hno p hp
      rw [hpr] at h0
      rw [h0] at hsome
      simp at hsome
    · intro _
      refine ⟨p, hp, ?_, ?_, ?_⟩
      · rw [hh, hpr]
      · rw [hh, hpr]
      · intro q hq hqe
        rw [hh]
        exact hmin _ (List.mem_map_of_mem _ hq) hqe

/-- Witness for C2: the failure branch of the join at a concrete batch. -/
theorem handle_join_semantics_witness :
    ∃ p ∈ LineHelper.launched failFastRegistry [followEvent],
      (p.2).error = (LineHelper.handle failFastRegistry [followEvent]).error ∧
      (p.2).settleAt = (LineHelper.handle failFastRegistry [followEvent]).settleAt ∧
      ∀ q ∈ LineHelper.launched failFastRegistry [followEvent], (q.2).error.isSome = true →
        (LineHelper.handle failFastRegistry [followEvent]).settleAt ≤ (q.2).settleAt :=
  (handle_join_semantics failFastRegistry [followEvent]).2.2 (by decide)

/-- C3: dispatch rejects if and only if some launched handler rejects;
the propagated error is the error of one of the launched handlers,
unchanged (no retry, no suppression); and when nothing is launched —
for example a follow event with only a message:text handler registered —
dispatch resolves with no error. -/
theorem handle_error_propagation (handlers : EventHandlers) (events : List Event) :
    ((LineHelper.handle handlers events).error.isSome = true ↔
      ∃ p ∈ LineHelper.launched handlers events, (p.2).error.isSome = true) ∧
    ((LineHelper.handle handlers events).error.isSome = true →
      ∃ p ∈ LineHelper.launched handlers events,
        (p.2).error = (LineHelper.handle handlers events).error) ∧
    (LineHelper.launched handlers events = [] →
      LineHelper.handle handlers events = ⟨0, none⟩) := by
  rcases promiseAll_cases ((LineHelper.launched handlers events).map (fun p => p.2)) with
    ⟨hall, hnone⟩ | ⟨r, hr, hall, hsome, _⟩
  · have hh : LineHelper.handle handlers events =
        ⟨LineHelper.maxSettle ((LineHelper.launched handlers events).map (fun p => p.2)),
         none⟩ := hall
    refine ⟨?_, ?_, ?_⟩
    · rw [hh]
      constructor
      · intro h0
        simp at h0
      · rintro ⟨p, hp, hpe⟩
        have h0 := hnone _ (List.mem_map_of_mem _ hp)
        rw [h0] at hpe
        simp at hpe
    · intro habs
      rw [hh] at habs
      simp at habs
    · intro h0
      show LineHelper.promiseAll
        ((LineHelper.launched handlers events).map (fun p => p.2)) = ⟨0, none⟩
      rw [h0]
      rfl
  · obtain ⟨p, hp, hpr⟩ := List.mem_map.mp hr
    have hh : LineHelper.handle handlers events = r := hall
    refine ⟨?_, ?_, ?_⟩
    · rw [hh]
      exact ⟨fun _ => ⟨p, hp, by rw [hpr]; exact hsome⟩, fun _ => hsome⟩
    · intro _
      exact ⟨p, hp, by rw [hh, hpr]⟩
    · intro h0
      rw [h0] at hr
      simp at hr

/-- Witness for C3: a follow event with only a message:text handler
registered launches nothing and dispatch resolves with no error. -/
theorem handle_error_propagation_witness :
    LineHelper.handle
      (LineHelper.«on» [] "message:text" ⟨7, fun _ => ⟨2, some "boom"⟩⟩)
      [followEvent] = ⟨0, none⟩ :=
  (handle_error_propagation
    (LineHelper.«on» [] "message:text" ⟨7, fun _ => ⟨2, some "boom"⟩⟩)
    [followEvent]).2.2 (by decide)

/-- C8: reply with a single message forwards the same transport call as
reply with the one-element list of that message, bound to the same reply
token; the same normalization equivalence holds for push. -/
theorem reply_push_normalization :
    (∀ (t : String) (m : LineHelper.Message),
      LineHelper.reply t (.single m) = LineHelper.reply t (.list [m])) ∧
    (∀ (recipient : String) (m : LineHelper.Message),
      LineHelper.push recipient (.single m) = LineHelper.push recipient (.list [m])) :=
  ⟨fun _ _ => rfl, fun _ _ => rfl⟩

/-! ### Webhook intake (src/plugin/elysia-line.ts)

JSON values are modelled as produced by JSON.parse (duplicate object keys
resolve to the last occurrence, so lookups take the last binding). JS
property reads throw only on a null receiver; reads on any other
non-object value yield undefined for the keys used here. The nullish
coalescing operator treats null and undefined alike. -/

inductive Json where
  | null
  | bool (b : Bool)
  | num (n : Int)
  | str (s : String)
  | arr (xs : List Json)
  | obj (fields : List (String × Json))

def isNullJson : Json → Bool
  | .null => true
  | _ => false

def lookupField (fs : List (String × Json)) (k : String) : Option Json :=
  fs.foldl (fun acc p => if p.1 == k then some p.2 else acc) none

def jsGetProp : Json → String → Except String (Option Json)
  | .null, _ => .error "TypeError"
  | .obj fs, k => .ok (lookupField fs k)
  | _, _ => .ok none

def nullish : Option Json → Option Json
  | none => none
  | some .null => none
  | some v => some v

/-- payload.destination ?? two double quotes -/
def defaultDest (destProp : Option Json) : Json :=
  match nullish destProp with
  | some v => v
  | none => .str ""

/-- The decode stage of the onRequest hook (the try block body after
JSON.parse returned j, lines 117 to 129). In evaluation order the code
reads payload.destination and payload.events while building the
logger.info argument (throwing on a null payload), evaluates
payload.events?.map(e => e.type) (throwing when a non-nullish events is
not an array, and on an events array containing null, whose element read
e.type throws), and then performs the store writes payload.events ?? []
and payload.destination ?? the empty string. A thrown TypeError is caught
by the enclosing catch and becomes the client-error outcome. -/
def decodePayload (j : Json) : Except String (List Json × Json) :=
  match jsGetProp j "destination" with
  | .error e => .error e
  | .ok destProp =>
    match jsGetProp j "events" with
    | .error e => .error e
    | .ok evProp =>
      match nullish evProp with
      | some (.arr xs) =>
        if xs.any isNullJson then .error "TypeError"
        else .ok (xs, defaultDest destProp)
      | some _ => .error "TypeError"
      | none => .ok ([], defaultDest destProp)

/-- The request-scoped store seeded by state("line-events", []) and
state("line-destination", empty string). -/
structure Store where
  lineEvents : List Json
  lineDestination : Json

def initialStore : Store := ⟨[], Json.str ""⟩

inductive Effect where
  | readBody
  | verifySignature
  | parseBody
  deriving DecidableEq

/-- The intake hook inputs: the HTTP method, the x-line-signature header
lookup (none when the header is absent), the request.text() outcome, and
the JSON.parse outcome for the read body (error when the body is not
valid JSON). -/
structure IntakeInput where
  method : String
  signature : Option String
  bodyText : Except Unit String
  parsed : Except Unit Json

/-- What the hook produced: the status it set (if any), the error body it
returned early (if any), the store it left behind, and the
externally-visible steps it performed, in order. -/
structure IntakeResult where
  status : Option Nat
  responseBody : Option String
  store : Store
  effects : List Effect

/-- The onRequest hook (lines 71 to 137): non-POST requests return at
once; a falsy signature header (absent or empty) is silently ignored; an
unreadable body yields 400; a body failing verification yields 401; a
body that fails JSON.parse or whose decode stage throws yields 400; and
otherwise the store is populated from the decoded envelope. -/
def onRequest (channelSecret : String) (input : IntakeInput) (store0 : Store) :
    IntakeResult :=
  if input.method ≠ "POST" then ⟨none, none, store0, []⟩
  else
    match input.signature with
    | none => ⟨none, none, store0, []⟩
    | some sig =>
      if sig = "" then ⟨none, none, store0, []⟩
      else
        match input.bodyText with
        | .error _ => ⟨some 400, some "Failed to read request body", store0, [.readBody]⟩
        | .ok body =>
          if validateSignature body sig channelSecret = false then
            ⟨some 401, some "Invalid signature", store0, [.readBody, .verifySignature]⟩
          else
            match input.parsed with
            | .error _ =>
              ⟨some 400, some "Invalid JSON body", store0,
               [.readBody, .verifySignature, .parseBody]⟩
            | .ok j =>
              match decodePayload j with
              | .error _ =>
                ⟨some 400, some "Invalid JSON body", store0,
                 [.readBody, .verifySignature, .parseBody]⟩
              | .ok (events, dest) =>
                ⟨none, none, ⟨events, dest⟩, [.readBody, .verifySignature, .parseBody]⟩

/-- The facade exposed by the derive hook, represented by the LineHelper
constructor arguments: the access token it binds and the event batch it
is bound to. -/
structure LineHelperView where
  channelAccessToken : String
  events : List Json

/-- The derive hook (lines 139 to 152): line is undefined unless the
stored decoded event list is non-empty; the stored value is always an
array, so the JS falsiness guard on it never fires. -/
def derive (channelAccessToken : String) (store : Store) : Option LineHelperView :=
  if store.lineEvents.length = 0 then none
  else some ⟨channelAccessToken, store.lineEvents⟩

/-! Plugin construction (lines 48 to 68). -/

structure LineOptions where
  channelSecret : Option String
  channelAccessToken : Option String
  verbose : Option Bool

structure PluginConfig where
  channelSecret : String
  channelAccessToken : String
  verbose : Bool

/-- JS falsiness of the destructured option strings: undefined or empty. -/
def falsyStr : Option String → Bool
  | none => true
  | some s => s = ""

/-- line(options): throws a configuration Error when channelSecret or
channelAccessToken is absent or empty, otherwise builds the plugin
closing over the configuration. -/
def line (options : LineOptions) : Except String PluginConfig :=
  if falsyStr options.channelSecret then
    .error "channelSecret is required. Get it from LINE Developers Console."
  else if falsyStr options.channelAccessToken then
    .error "channelAccessToken is required. Get it from LINE Developers Console."
  else
    .ok ⟨(options.channelSecret).getD "", (options.channelAccessToken).getD "",
      (options.verbose).getD false⟩

/-! Spec-side predicates, written from the claims, for comparison with
the source-derived functions above. -/

/-- Modelled from the spec words only: an event is an object whose type
discriminant is a string. -/
def isEventShaped : Json → Bool
  | .obj fs =>
    match lookupField fs "type" with
    | some (.str _) => true
    | _ => false
  | _ => false

/-- Modelled from the spec words only: structured data matching the
envelope shape is an object whose destination, when present, is a string
and whose events, when present, is an array of event-shaped values. -/
def matchesEnvelopeShape : Json → Bool
  | .obj fs =>
    (match lookupField fs "destination" with
     | none => true
     | some (.str _) => true
     | some _ => false) &&
    (match lookupField fs "events" with
     | none => true
     | some (.arr xs) => xs.all isEventShaped
     | some _ => false)
  | _ => false

/-- The declarative condition under which the decode stage throws. -/
def envelopeRejects : Json → Bool
  | .null => true
  | .obj fs =>
    (match lookupField fs "events" with
     | none => false
     | some .null => false
     | some (.arr xs) => xs.any isNullJson
     | some _ => true)
  | _ => false

theorem decodePayload_isOk (j : Json) :
    (decodePayload j).isOk = true ↔ envelopeRejects j = false := by
  cases j with
  | null => simp [decodePayload, jsGetProp, envelopeRejects, Except.isOk, Except.toBool]
  | obj fs =>
    simp only [decodePayload, jsGetProp, envelopeRejects]
    cases hev : lookupField fs "events" with
    | none => simp [nullish, Except.isOk, Except.toBool]
    | some v =>
      cases v with
      | null => simp [nullish, Except.isOk, Except.toBool]
      | arr xs =>
        by_cases hna : xs.any isNullJson
        · simp [nullish, hna, Except.isOk, Except.toBool]
        · simp [nullish, hna, Except.isOk, Except.toBool]
      | bool b => simp [nullish, Except.isOk, Except.toBool]
      | num n => simp [nullish, Except.isOk, Except.toBool]
      | str s => simp [nullish, Except.isOk, Except.toBool]
      | obj gs => simp [nullish, Except.isOk, Except.toBool]
  | bool b => simp [decodePayload, jsGetProp, envelopeRejects, nullish, Except.isOk, Except.toBool]
  | num n => simp [decodePayload, jsGetProp, envelopeRejects, nullish, Except.isOk, Except.toBool]
  | str s => simp [decodePayload, jsGetProp, envelopeRejects, nullish, Except.isOk, Except.toBool]
  | arr xs => simp [decodePayload, jsGetProp, envelopeRejects, nullish, Except.isOk, Except.toBool]

/-- C5 counterexample: the JSON number 42 is valid structured data that
does not match the envelope shape, yet the decode stage accepts it,
defaulting both fields, so decoding does not fail exactly on envelope
shape mismatch. -/
theorem decode_accepts_non_envelope :
    (decodePayload (Json.num 42)).isOk = true ∧
    matchesEnvelopeShape (Json.num 42) = false := by decide

/-- C5 amended: decoding never fails merely because optional fields are
absent — an envelope object with no events and no destination decodes to
the empty event list and the empty-string destination — and decoding
fails exactly when the parsed value is the JSON null, carries a
non-nullish events field that is not an array, or carries an events array
containing a null element; no other envelope shape validation happens. -/
theorem decodePayload_spec :
    (∀ j : Json, (decodePayload j).isOk = true ↔ envelopeRejects j = false) ∧
    (∀ fs : List (String × Json),
      lookupField fs "events" = none → lookupField fs "destination" = none →
      decodePayload (Json.obj fs) = .ok ([], Json.str "")) := by
  refine ⟨decodePayload_isOk, ?_⟩
  intro fs hev hdest
  simp [decodePayload, jsGetProp, hev, hdest, nullish, defaultDest]

/-- Witness for C5: the empty envelope object decodes to the defaults. -/
theorem decodePayload_spec_witness :
    decodePayload (Json.obj []) = .ok ([], Json.str "") :=
  decodePayload_spec.2 [] rfl rfl

def wrongShapeSignature : String :=
  base64Encode (hmacSha256 (utf8Bytes "secret") (utf8Bytes "[]"))

def wrongShapeInput : IntakeInput :=
  ⟨"POST", some wrongShapeSignature, .ok "[]", .ok (Json.arr [])⟩

/-- C6 counterexample: a POST carrying a correctly signed body whose JSON
is the empty array — not a well-formed envelope — is accepted by the
intake with no status and no error response, instead of the client-error
outcome the claim assigns to a malformed envelope. -/
theorem intake_accepts_malformed_envelope :
    matchesEnvelopeShape (Json.arr []) = false ∧
    validateSignature "[]" wrongShapeSignature "secret" = true ∧
    (onRequest "secret" wrongShapeInput initialStore).status = none ∧
    (onRequest "secret" wrongShapeInput initialStore).responseBody = none := by decide

/-- C6 amended: for POST requests the intake produces exactly these
outcomes: a falsy signature header (absent or empty) is silently ignored
with nothing read and no error surfaced; an unreadable body yields 400;
a readable body failing signature verification yields 401 with the store
untouched (so no facade and zero handler invocations); a body that is
not valid JSON yields 400; valid JSON on which the decode stage throws
(null payload, non-nullish non-array events, or an events array
containing null) yields 400; on every other path the request succeeds
with the store populated from the decoded envelope. -/
theorem onRequest_outcomes (channelSecret : String) (sig : Option String)
    (bodyText : Except Unit String) (parsed : Except Unit Json) (store0 : Store) :
    ((sig = none ∨ sig = some "") →
      onRequest channelSecret ⟨"POST", sig, bodyText, parsed⟩ store0 =
        ⟨none, none, store0, []⟩) ∧
    (∀ s, sig = some s → s ≠ "" → ∀ e, bodyText = .error e →
      onRequest channelSecret ⟨"POST", sig, bodyText, parsed⟩ store0 =
        ⟨some 400, some "Failed to read request body", store0, [.readBody]⟩) ∧
    (∀ s body, sig = some s → s ≠ "" → bodyText = .ok body →
      validateSignature body s channelSecret = false →
      onRequest channelSecret ⟨"POST", sig, bodyText, parsed⟩ store0 =
        ⟨some 401, some "Invalid signature", store0, [.readBody, .verifySignature]⟩) ∧
    (∀ s body e, sig = some s → s ≠ "" → bodyText = .ok body →
      validateSignature body s channelSecret = true → parsed = .error e →
      onRequest channelSecret ⟨"POST", sig, bodyText, parsed⟩ store0 =
        ⟨some 400, some "Invalid JSON body", store0,
         [.readBody, .verifySignature, .parseBody]⟩) ∧
    (∀ s body j, sig = some s → s ≠ "" → bodyText = .ok body →
      validateSignature body s channelSecret = true → parsed = .ok j →
      envelopeRejects j = true →
      onRequest channelSecret ⟨"POST", sig, bodyText, parsed⟩ store0 =
        ⟨some 400, some "Invalid JSON body", store0,
         [.readBody, .verifySignature, .parseBody]⟩) ∧
    (∀ s body j, sig = some s → s ≠ "" → bodyText = .ok body →
      validateSignature body s channelSecret = true → parsed = .ok j →
      envelopeRejects j = false →
      ∃ events dest, decodePayload j = .ok (events, dest) ∧
        onRequest channelSecret ⟨"POST", sig, bodyText, parsed⟩ store0 =
          ⟨none, none, ⟨events, dest⟩, [.readBody, .verifySignature, .parseBody]⟩) := by
  refine ⟨?_, ?_, ?_, ?_, ?_, ?_⟩
  · rintro (rfl | rfl) <;> simp [onRequest]
  · rintro s rfl hs e rfl
    simp [onRequest, hs]
  · rintro s body rfl hs rfl hv
    simp [onRequest, hs, hv]
  · rintro s body e rfl hs rfl hv rfl
    simp [onRequest, hs, hv]
  · rintro s body j rfl hs rfl hv rfl hrej
    have hnok : (decodePayload j).isOk = false := by
      cases hok : (decodePayload j).isOk
      · rfl
      · rw [decodePayload_isOk] at hok
        rw [hok] at hrej
        simp at hrej
    cases hd : decodePayload j with
    | error e2 => simp [onRequest, hs, hv, hd]
    | ok pr =>
      rw [hd] at hnok
      simp [Except.isOk, Except.toBool] at hnok
  · rintro s body j rfl hs rfl hv rfl hrej
    have hok : (decodePayload j).isOk = true := (decodePayload_isOk j).mpr hrej
    cases hd : decodePayload j with
    | error e2 =>
      rw [hd] at hok
      simp [Except.isOk, Except.toBool] at hok
    | ok pr =>
      obtain ⟨ev, d⟩ := pr
      exact ⟨ev, d, rfl, by simp [onRequest, hs, hv, hd]⟩

/-- Witness for C6: the unauthorized branch at a concrete input. -/
theorem onRequest_outcomes_witness :
    onRequest "s" ⟨"POST", some "bad", .ok "x", .ok Json.null⟩ initialStore =
      ⟨some 401, some "Invalid signature", initialStore, [.readBody, .verifySignature]⟩ :=
  (onRequest_outcomes "s" (some "bad") (.ok "x") (.ok Json.null) initialStore).2.2.1
    "bad" "x" rfl (by decide) rfl (by decide)

theorem falsyStr_iff (o : Option String) :
    falsyStr o = true ↔ o = none ∨ o = some "" := by
  cases o with
  | none => simp [falsyStr]
  | some s => simp [falsyStr]

/-- C7: plugin construction raises a configuration error, producing no
plugin value, exactly when channelSecret is absent or empty or
channelAccessToken is absent or empty; with both present and non-empty it
succeeds. -/
theorem line_construction_spec (options : LineOptions) :
    (∃ e, line options = .error e) ↔
      (options.channelSecret = none ∨ options.channelSecret = some "" ∨
       options.channelAccessToken = none ∨ options.channelAccessToken = some "") := by
  constructor
  · rintro ⟨e, he⟩
    by_cases h1 : falsyStr options.channelSecret = true
    · have h := (falsyStr_iff _).mp h1
      tauto
    · by_cases h2 : falsyStr options.channelAccessToken = true
      · have h := (falsyStr_iff _).mp h2
        tauto
      · rw [Bool.not_eq_true] at h1 h2
        simp [line, h1, h2] at he
  · intro hd
    by_cases h1 : falsyStr options.channelSecret = true
    · exact ⟨"channelSecret is required. Get it from LINE Developers Console.",
        by simp [line, h1]⟩
    · have h2 : falsyStr options.channelAccessToken = true := by
        rw [Bool.not_eq_true] at h1
        rcases hd with h | h | h | h
        · have hx := (falsyStr_iff options.channelSecret).mpr (Or.inl h)
          simp [hx] at h1
        · have hx := (falsyStr_iff options.channelSecret).mpr (Or.inr h)
          simp [hx] at h1
        · exact (falsyStr_iff _).mpr (Or.inl h)
        · exact (falsyStr_iff _).mpr (Or.inr h)
      rw [Bool.not_eq_true] at h1
      exact ⟨"channelAccessToken is required. Get it from LINE Developers Console.",
        by simp [line, h1, h2]⟩

/-- True exactly on the fully successful intake path, the only one that
reaches the store writes. -/
def intakeSucceeded (r : IntakeResult) : Bool :=
  r.status.isNone && r.effects.contains .parseBody

theorem onRequest_store_frame (channelSecret : String) (input : IntakeInput) (st0 : Store) :
    (onRequest channelSecret input st0).store = st0 ∨
    intakeSucceeded (onRequest channelSecret input st0) = true := by
  unfold onRequest
  split
  · exact Or.inl rfl
  · split
    · exact Or.inl rfl
    · split
      · exact Or.inl rfl
      · split
        · exact Or.inl rfl
        · split
          · exact Or.inl rfl
          · split
            · exact Or.inl rfl
            · split
              · exact Or.inl rfl
              · exact Or.inr rfl

/-- C9: the derived line facade is undefined exactly when the stored
decoded event list is empty; the store is written only on the fully
successful intake path, so every failure path leaves it at its initial
value (and hence yields an undefined facade); and a non-empty stored
event list yields a helper bound to exactly those events and the
configured access token. -/
theorem derive_facade_spec :
    (∀ (tok : String) (st : Store), derive tok st = none ↔ st.lineEvents = []) ∧
    (∀ (channelSecret : String) (input : IntakeInput) (st0 : Store),
      intakeSucceeded (onRequest channelSecret input st0) = false →
      (onRequest channelSecret input st0).store = st0) ∧
    (∀ (tok : String) (st : Store), st.lineEvents ≠ [] →
      derive tok st = some ⟨tok, st.lineEvents⟩) := by
  refine ⟨?_, ?_, ?_⟩
  · intro tok st
    constructor
    · intro h
      by_cases hl : st.lineEvents.length = 0
      · exact List.length_eq_zero.mp hl
      · simp [derive, hl] at h
    · intro h
      simp [derive, h]
  · intro c i s0 h
    rcases onRequest_store_frame c i s0 with hs | hs
    · exact hs
    · rw [hs] at h
      simp at h
  · intro tok st h
    have hl : st.lineEvents.length ≠ 0 := by
      intro h0
      exact h (List.length_eq_zero.mp h0)
    simp [derive, hl]

/-- Witness for C9: a failing intake leaves the store untouched, and a
store holding one event yields the facade bound to it. -/
theorem derive_facade_spec_witness :
    (onRequest "s" ⟨"GET", none, .error (), .error ()⟩ initialStore).store = initialStore ∧
    derive "tok" ⟨[Json.str "e"], Json.str ""⟩ = some ⟨"tok", [Json.str "e"]⟩ :=
  ⟨derive_facade_spec.2.1 "s" ⟨"GET", none, .error (), .error ()⟩ initialStore (by decide),
   derive_facade_spec.2.2 "tok" ⟨[Json.str "e"], Json.str ""⟩ (by simp)⟩

/-- C10: a request whose method is not POST returns immediately: no body
read, no signature verification, no parse (empty effect trace), no status
set, no early response, and the store left exactly as it was. -/
theorem onRequest_non_post (channelSecret : String) (input : IntakeInput) (st0 : Store)
    (h : input.method ≠ "POST") :
    onRequest channelSecret input st0 = ⟨none, none, st0, []⟩ := by
  simp [onRequest, h]

/-- Witness for C10: a GET request is ignored untouched. -/
theorem onRequest_non_post_witness :
    onRequest "s" ⟨"GET", some "x", .ok "b", .ok Json.null⟩ initialStore =
      ⟨none, none, initialStore, []⟩ :=
  onRequest_non_post "s" ⟨"GET", some "x", .ok "b", .ok Json.null⟩ initialStore (by decide)
